import Mathlib

/-!
Verification of the Cawston budget application core: the PDF line extractor
and CSV column reconciler of `data_processor.py`, and the probability,
risk and Monte Carlo engine of `probability_engine.py`.

Modelling conventions.

Numbers: pandas/numpy float64 cells are modelled as exact rationals.  The two
places where IEEE special values are observable in the source, namely
division by a zero budget in `calculate_risk_assessment` (which produces
`inf`, `-inf` or `nan` and is followed by `fillna(0)`), are modelled
explicitly with the type `FloatVal` below, which carries finite rationals
together with the three special values and mirrors the numpy rules for
division by zero, multiplication by a constant, absolute value, comparison
and clipping.  Everywhere else no special value can arise and plain `ℚ` is
used.

Data frames: the probability engine reads the resolved `budget` and `actual`
columns of the canonical dataset (the source resolves the column name with
`budget_2025_26 if ... else budget`; the `Row` structure below holds the
already-resolved values).  A dataset is a list of rows, and the per-row
`DataFrame.apply` calls of the source become `List.map`.

Randomness: `np.random.normal` draws in the Monte Carlo simulation are
modelled as an oracle `sample : ℕ → String → ℚ` giving the raw normal draw
for each trial index and category; the source clips each draw to [10, 100],
which is kept as an explicit step.
-/

/-- A numpy float64 value as observed by this program: a finite rational or
one of the special values `inf`, `-inf`, `nan`. -/
inductive FloatVal where
  | finite (q : ℚ)
  | posInf
  | negInf
  | nan
deriving DecidableEq, Repr

/-- Float division `x / y` of finite values, with the numpy rules for a zero
divisor: `0/0 = nan`, `x/0 = inf` for `x > 0` and `-inf` for `x < 0`. -/
def divF (x y : ℚ) : FloatVal :=
  if y = 0 then
    if x = 0 then FloatVal.nan
    else if x > 0 then FloatVal.posInf
    else FloatVal.negInf
  else FloatVal.finite (x / y)

/-- Multiplication of a float value by a finite constant (numpy rules:
`inf * c` follows the sign of `c`, `inf * 0 = nan`, `nan * c = nan`). -/
def mulFC (v : FloatVal) (c : ℚ) : FloatVal :=
  match v with
  | FloatVal.finite q => FloatVal.finite (q * c)
  | FloatVal.posInf =>
      if c > 0 then FloatVal.posInf else if c < 0 then FloatVal.negInf else FloatVal.nan
  | FloatVal.negInf =>
      if c > 0 then FloatVal.negInf else if c < 0 then FloatVal.posInf else FloatVal.nan
  | FloatVal.nan => FloatVal.nan

/-- The pandas `Series.fillna(0)` step: `nan` becomes `0`; the infinities are
not NA values and pass through unchanged. -/
def fillna0 (v : FloatVal) : FloatVal :=
  match v with
  | FloatVal.nan => FloatVal.finite 0
  | w => w

/-- Absolute value of a float value (`abs(-inf) = inf`, `abs(nan) = nan`). -/
def absF (v : FloatVal) : FloatVal :=
  match v with
  | FloatVal.finite q => FloatVal.finite |q|
  | FloatVal.posInf => FloatVal.posInf
  | FloatVal.negInf => FloatVal.posInf
  | FloatVal.nan => FloatVal.nan

/-- The comparison `v <= c` of a float value against a finite constant, as a
Python/numpy boolean (comparisons with `nan` are false). -/
def leFC (v : FloatVal) (c : ℚ) : Bool :=
  match v with
  | FloatVal.finite q => decide (q ≤ c)
  | FloatVal.posInf => false
  | FloatVal.negInf => true
  | FloatVal.nan => false

/-- The numpy `clip(v, lo, hi)` of a float value between finite bounds:
finite values clamp, `inf` clamps to `hi`, `-inf` to `lo`, `nan` stays. -/
def clipFC (v : FloatVal) (lo hi : ℚ) : FloatVal :=
  match v with
  | FloatVal.finite q => FloatVal.finite (min (max q lo) hi)
  | FloatVal.posInf => FloatVal.finite hi
  | FloatVal.negInf => FloatVal.finite lo
  | FloatVal.nan => FloatVal.nan

/-- One row of the canonical dataset as read by the probability engine:
`budget` and `actual` are the values of the resolved budget/actual columns. -/
structure Row where
  description : String
  category : String
  rowType : String
  budget : ℚ
  actual : ℚ
deriving DecidableEq, Repr

/-- The `dict.get(key, default)` of Python, over an association list. -/
def dictGet (m : List (String × ℚ)) (k : String) (d : ℚ) : ℚ :=
  (List.lookup k m).getD d

/-- One output row of `apply_probability_scenario`. -/
structure ScenRow where
  description : String
  category : String
  rowType : String
  budget : ℚ
  actual : ℚ
  probability_factor : ℚ
  remaining_budget : ℚ
  projected_remaining : ℚ
  projected_total : ℚ
  projected_variance : ℚ
deriving DecidableEq, Repr

/-- `ProbabilityEngine.apply_probability_scenario` of `probability_engine.py`
(lines 13-31): per row, `probability_factor = probabilities.get(category,
100) / 100`, `remaining_budget = budget - actual`, `projected_remaining =
remaining_budget * probability_factor`, `projected_total = actual +
projected_remaining`, `projected_variance = budget - projected_total`. -/
def apply_probability_scenario (df : List Row) (probabilities : List (String × ℚ)) :
    List ScenRow :=
  df.map (fun row =>
    let probability_factor := dictGet probabilities row.category 100 / 100
    let remaining_budget := row.budget - row.actual
    let projected_remaining := remaining_budget * probability_factor
    let projected_total := row.actual + projected_remaining
    let projected_variance := row.budget - projected_total
    { description := row.description, category := row.category, rowType := row.rowType,
      budget := row.budget, actual := row.actual,
      probability_factor := probability_factor, remaining_budget := remaining_budget,
      projected_remaining := projected_remaining, projected_total := projected_total,
      projected_variance := projected_variance })

/-- One output row of `calculate_risk_assessment`. -/
structure RiskRow where
  description : String
  category : String
  rowType : String
  budget : ℚ
  actual : ℚ
  variance_pct : FloatVal
  risk_category : String
  risk_score : FloatVal
deriving DecidableEq, Repr

/-- The inner `categorize_risk` of `calculate_risk_assessment`
(`probability_engine.py` lines 45-56), applied to the already computed
`variance_pct` and the budget of the row. -/
def categorize_risk (variance_pct : FloatVal) (budget_amount : ℚ) : String :=
  let abs_variance := absF variance_pct
  if budget_amount = 0 then "No Budget"
  else if leFC abs_variance 5 then "Low Risk"
  else if leFC abs_variance 15 then "Medium Risk"
  else if leFC abs_variance 30 then "High Risk"
  else "Critical Risk"

/-- `ProbabilityEngine.calculate_risk_assessment` (`probability_engine.py`
lines 33-65): `variance_pct = ((budget - actual) / budget * 100).fillna(0)`,
then the risk category, then `risk_score = clip(abs(variance_pct) * 2, 0,
100)`.  Division by a zero budget follows the numpy float rules captured by
`divF`; only the `nan` of `0/0` is replaced by `fillna(0)`. -/
def calculate_risk_assessment (df : List Row) : List RiskRow :=
  df.map (fun row =>
    let variance_pct := fillna0 (mulFC (divF (row.budget - row.actual) row.budget) 100)
    { description := row.description, category := row.category, rowType := row.rowType,
      budget := row.budget, actual := row.actual,
      variance_pct := variance_pct,
      risk_category := categorize_risk variance_pct row.budget,
      risk_score := clipFC (mulFC (absF variance_pct) 2) 0 100 })

/-- One output row of `generate_cash_flow_projection`. -/
structure ProjRow where
  description : String
  category : String
  month : ℕ
  monthly_projected : ℚ
  cumulative_projected : ℚ
  budget : ℚ
  remaining_budget : ℚ
deriving DecidableEq, Repr

/-- The inner month loop of `generate_cash_flow_projection`: starting from
the accumulated `cumulative` projection, emits one row per remaining month,
adding `monthly_actual` each month. -/
def monthRows (row : Row) (monthly_actual : ℚ) : ℚ → ℕ → ℕ → List ProjRow
  | _, _, 0 => []
  | cumulative, month, Nat.succ remaining =>
    let cumulative2 := cumulative + monthly_actual
    { description := row.description, category := row.category, month := month,
      monthly_projected := monthly_actual, cumulative_projected := cumulative2,
      budget := row.budget, remaining_budget := row.budget - cumulative2 } ::
      monthRows row monthly_actual cumulative2 (month + 1) remaining

/-- `ProbabilityEngine.generate_cash_flow_projection` (`probability_engine.py`
lines 67-97): with the hardcoded `months_elapsed = 5`, per row
`monthly_actual = actual / months_elapsed`, then one projection row per
month `1..months_ahead` accumulating `cumulative_projected`. -/
def generate_cash_flow_projection (df : List Row) (months_ahead : ℕ) : List ProjRow :=
  df.flatMap (fun row =>
    let months_elapsed : ℚ := 5
    let monthly_actual := if months_elapsed > 0 then row.actual / months_elapsed else 0
    monthRows row monthly_actual row.actual 1 months_ahead)

/-- The summary dictionary built by `get_summary_statistics`
(`data_processor.py` lines 233-263) when the dataset is not empty. -/
structure SummaryStats where
  total_budget : ℚ
  total_actual : ℚ
  total_variance : ℚ
  variance_percentage : ℚ
  income_budget : ℚ
  income_actual : ℚ
  expense_budget : ℚ
  expense_actual : ℚ
  completion_rate : ℚ
deriving DecidableEq, Repr

/-- `FinancialDataProcessor.get_summary_statistics` (`data_processor.py`
lines 233-263).  An empty dataset returns the empty dictionary, modelled as
`none`; otherwise the additive aggregates with the zero-budget guards of the
source. -/
def get_summary_statistics (df : List Row) : Option SummaryStats :=
  match df with
  | [] => none
  | _ =>
    let total_budget := (df.map Row.budget).sum
    let total_actual := (df.map Row.actual).sum
    let total_variance := total_budget - total_actual
    let income := df.filter (fun r => r.rowType == "Income")
    let expense := df.filter (fun r => r.rowType == "Expenditure")
    some {
      total_budget := total_budget, total_actual := total_actual,
      total_variance := total_variance,
      variance_percentage :=
        if total_budget ≠ 0 then total_variance / total_budget * 100 else 0,
      income_budget := (income.map Row.budget).sum,
      income_actual := (income.map Row.actual).sum,
      expense_budget := (expense.map Row.budget).sum,
      expense_actual := (expense.map Row.actual).sum,
      completion_rate :=
        if total_budget ≠ 0 then total_actual / total_budget * 100 else 0 }

/-- The numpy `clip(x, lo, hi)` on plain rationals. -/
def clipQ (x lo hi : ℚ) : ℚ := min (max x lo) hi

/-- Linear interpolation at virtual index `h` into the sorted list `s`,
exactly the default interpolation of `np.percentile`: with `i = floor h`,
the value is `s[i] + (h - i) * (s[i+1] - s[i])` (the upper index clamped to
the last position). -/
def interpAt (s : List ℚ) (h : ℚ) : ℚ :=
  let i := (⌊h⌋).toNat
  let j := min (i + 1) (s.length - 1)
  s.getD i 0 + (h - (i : ℚ)) * (s.getD j 0 - s.getD i 0)

/-- `np.percentile(l, p)` with the default linear interpolation: sort, then
interpolate at virtual index `p / 100 * (n - 1)`. -/
def percentileQ (l : List ℚ) (p : ℚ) : ℚ :=
  let s := List.insertionSort (· ≤ ·) l
  interpAt s (p / 100 * ((s.length : ℚ) - 1))

/-- The dictionary returned by `calculate_monte_carlo_simulation`.  The
`std_variance` entry of the source is an irrational square root and no claim
concerns it, so it is not carried here; every other entry is. -/
structure MonteCarloResult where
  mean_variance : ℚ
  percentile_5 : ℚ
  percentile_25 : ℚ
  percentile_75 : ℚ
  percentile_95 : ℚ
  probability_positive : ℚ
  all_results : List ℚ
deriving DecidableEq, Repr

/-- `ProbabilityEngine.calculate_monte_carlo_simulation`
(`probability_engine.py` lines 150-183).  For each trial `t`, one raw normal
draw per distinct category is taken from the oracle `sample`, clipped to
[10, 100]; `apply_probability_scenario` is applied with those probabilities
and the dataset-wide sum of `projected_variance` is recorded.  On an empty
result array `np.percentile` raises, modelled as `none`. -/
def calculate_monte_carlo_simulation (df : List Row) (sample : ℕ → String → ℚ)
    (simulations : ℕ) : Option MonteCarloResult :=
  let results := (List.range simulations).map (fun t =>
    let random_probs := (List.eraseDups (df.map Row.category)).map
      (fun category => (category, clipQ (sample t category) 10 100))
    ((apply_probability_scenario df random_probs).map ScenRow.projected_variance).sum)
  if results = [] then none
  else some {
    mean_variance := results.sum / (results.length : ℚ),
    percentile_5 := percentileQ results 5,
    percentile_25 := percentileQ results 25,
    percentile_75 := percentileQ results 75,
    percentile_95 := percentileQ results 95,
    probability_positive :=
      ((results.countP (fun x => decide (x > 0)) : ℚ) / (results.length : ℚ)) * 100,
    all_results := results }

deriving instance DecidableEq for Except

/-- Lowercasing of one character, the ASCII case of Python `str.lower`
(the column names this program meets are ASCII). -/
def lowerChar (c : Char) : Char :=
  if 'A' ≤ c ∧ c ≤ 'Z' then Char.ofNat (c.toNat + 32) else c

/-- Column-name normalization of `process_csv` (`data_processor.py` line
137): `df.columns.str.lower().str.replace(' ', '_')`. -/
def normName (s : String) : String :=
  String.mk (s.data.map (fun c => if c = ' ' then '_' else lowerChar c))

/-- One cell of a data frame: a float64 number or a string. -/
inductive Value where
  | num (q : ℚ)
  | str (s : String)
deriving DecidableEq, Repr

/-- A pandas data frame as a list of named columns, each with its cells in
row order. -/
structure DF where
  cols : List (String × List Value)
deriving DecidableEq, Repr

/-- The column names of a data frame, in order. -/
def DF.names (df : DF) : List String := df.cols.map Prod.fst

/-- The cells of the first column named `n`, or `none` when absent. -/
def DF.getCol (df : DF) (n : String) : Option (List Value) :=
  (df.cols.find? (fun p => p.1 == n)).map Prod.snd

/-- The cells of the first column named `n`, defaulting to the empty column. -/
def DF.getColD (df : DF) (n : String) : List Value :=
  (df.getCol n).getD []

/-- The number of rows (the length of the first column, as in a rectangular
pandas frame). -/
def DF.nrows (df : DF) : ℕ :=
  ((df.cols.head?).map (fun p => p.2.length)).getD 0

/-- The alias table `column_mappings` of `_map_csv_columns`
(`data_processor.py` lines 165-172), in source order. -/
def column_mappings : List (String × List String) :=
  [("description", ["description", "desc", "item", "name", "details"]),
   ("budget", ["budget", "budget_2025_26", "budgeted", "planned", "allocation"]),
   ("actual", ["actual", "actual_net", "spent", "used", "expenditure"]),
   ("category", ["category", "cat", "type", "group", "section"]),
   ("balance", ["balance", "remaining", "variance", "difference"]),
   ("code", ["code", "account_code", "ref", "reference", "id"])]

/-- The `column_map` built by `_map_csv_columns` (lines 175-183): for each
target column, the first alias present among the frame columns maps to the
target, and the scan of that target stops at the first hit. -/
def buildColumnMap (cols : List String) : List (String × String) :=
  column_mappings.flatMap (fun tp =>
    match tp.2.find? (fun a => cols.contains a) with
    | some a => [(a, tp.1)]
    | none => [])

/-- Renaming of the columns of a frame by `df.rename(columns=column_map)`
(line 186): a name that is a key of the map becomes its target, any other
name is kept. -/
def renameDF (df : DF) : DF :=
  let cmap := buildColumnMap df.names
  ⟨df.cols.map (fun p => ((List.lookup p.1 cmap).getD p.1, p.2))⟩

/-- The `essential_cols` of `_map_csv_columns` (line 195). -/
def essential_cols : List String := ["description", "budget", "actual"]

/-- The `missing_essential` list of `_map_csv_columns` (line 196): essential
canonical names not present after renaming, in essential order. -/
def missingEssential (df : DF) : List String :=
  essential_cols.filter (fun c => !(df.names.contains c))

/-- `FinancialDataProcessor._map_csv_columns` (`data_processor.py` lines
161-212) on a frame with already normalized column names: rename along the
alias map, then reject the whole frame when an essential column is missing,
reporting exactly the missing canonical names (the source shows them with
`st.error`/`st.write` and returns an empty frame; the rejection is modelled
as `Except.error` carrying that list). -/
def map_csv_columns (df : DF) : Except (List String) DF :=
  let dfm := renameDF df
  let missing := missingEssential dfm
  if missing = [] then Except.ok dfm else Except.error missing

/-- Normalization of every column name of a frame (`process_csv` line 137). -/
def normalizeDF (df : DF) : DF :=
  ⟨df.cols.map (fun p => (normName p.1, p.2))⟩

/-- Cell-level subtraction for the derived `balance = budget - actual`
column.  On string cells pandas raises a TypeError, which the outer
`except` of `process_csv` turns into a failed upload; the junk value 0
below therefore lies outside the program behaviour, and every theorem of
this file about a successful upload restricts the relevant columns to
numeric cells, so that this arm is never exercised. -/
def valSub (a b : Value) : Value :=
  match a, b with
  | Value.num x, Value.num y => Value.num (x - y)
  | _, _ => Value.num 0

/-- The type of one budget cell per `process_csv` line 153:
`'Income' if x < 0 else 'Expenditure'`.  On a string cell Python raises a
TypeError, which the outer `except` of `process_csv` turns into a failed
upload; the junk arm below therefore lies outside the program behaviour,
and every theorem of this file about a successful upload restricts the
budget column to numeric cells, so that this arm is never exercised. -/
def valTypeOfBudget (v : Value) : Value :=
  match v with
  | Value.num q => Value.str (if q < 0 then "Income" else "Expenditure")
  | Value.str _ => Value.str "Expenditure"

/-- The derived-column block of `process_csv` (`data_processor.py` lines
145-153), in source order: backfill `balance` when absent (and budget and
actual are present), default `category` to `"General"` when absent, derive
`type` from the sign of the budget when absent (and budget is present). -/
def addDerived (df : DF) : DF :=
  let df1 :=
    if !(df.names.contains "balance") && df.names.contains "budget"
        && df.names.contains "actual" then
      ⟨df.cols ++ [("balance", List.zipWith valSub (df.getColD "budget") (df.getColD "actual"))]⟩
    else df
  let df2 :=
    if !(df1.names.contains "category") then
      ⟨df1.cols ++ [("category", List.replicate df1.nrows (Value.str "General"))]⟩
    else df1
  let df3 :=
    if !(df2.names.contains "type") && df2.names.contains "budget" then
      ⟨df2.cols ++ [("type", (df2.getColD "budget").map valTypeOfBudget)]⟩
    else df2
  df3

/-- `FinancialDataProcessor.process_csv` (`data_processor.py` lines
128-159): normalize the column names, run the intelligent column mapping
(whose failure aborts the upload with the missing canonical names), then,
unless the mapped frame is empty (`if df.empty: return df`, lines 142-143;
on a rectangular frame that passed the essential-column check, empty means
zero data rows), add the derived columns.  A successfully mapped zero-row
frame is therefore returned as is, without the derived-column block. -/
def process_csv (df : DF) : Except (List String) DF :=
  match map_csv_columns (normalizeDF df) with
  | Except.error e => Except.error e
  | Except.ok dfm =>
    if dfm.nrows = 0 then Except.ok dfm
    else Except.ok (addDerived dfm)

/-- The character class `\s` of the Python regex engine (the whitespace met
in these lines is ASCII). -/
def isSpaceC (c : Char) : Bool := c = ' ' ∨ c = '\t' ∨ c = '\n' ∨ c = '\r'

/-- The character class `\d`. -/
def isDigitC (c : Char) : Bool := c.isDigit

/-- The character class `[^£]`. -/
def isNotPound (c : Char) : Bool := c ≠ '£'

/-- The character class `[\d,.-]` of the amount groups. -/
def isAmtC (c : Char) : Bool := c.isDigit ∨ c = ',' ∨ c = '.' ∨ c = '-'

/-- All ways a greedy `p+` can split the input into a nonempty matched
prefix and a rest, longest prefix first (the backtracking order of the
regex engine). -/
def plusSplitsGreedy (p : Char → Bool) (cs : List Char) : List (List Char × List Char) :=
  let m := (cs.takeWhile p).length
  (List.range m).map (fun k => (cs.take (m - k), cs.drop (m - k)))

/-- All ways a lazy `p+?` can split the input, shortest prefix first. -/
def plusSplitsLazy (p : Char → Bool) (cs : List Char) : List (List Char × List Char) :=
  let m := (cs.takeWhile p).length
  (List.range m).map (fun k => (cs.take (k + 1), cs.drop (k + 1)))

/-- The splits of a counted repetition `p{..}` for the given candidate
counts, in the given (priority) order; a count that does not fit yields no
candidate. -/
def repSplits (p : Char → Bool) (counts : List ℕ) (cs : List Char) :
    List (List Char × List Char) :=
  counts.filterMap (fun k =>
    if (cs.take k).length = k ∧ (cs.take k).all p then some (cs.take k, cs.drop k)
    else none)

/-- The splits of an optional literal character `c?`, with-the-character
first (greedy). -/
def optSplits (c : Char) (cs : List Char) : List (List Char × List Char) :=
  match cs with
  | x :: rest => if x = c then [([c], rest), ([], x :: rest)] else [([], x :: rest)]
  | [] => [([], [])]

/-- The splits of the currency group `(£[\d,.-]+)`: a literal pound sign
followed by a greedy run of amount characters; the captured text includes
the sign. -/
def currencySplits (cs : List Char) : List (List Char × List Char) :=
  match cs with
  | x :: rest =>
    if x = '£' then (plusSplitsGreedy isAmtC rest).map (fun g => ('£' :: g.1, g.2))
    else []
  | [] => []

/-- The splits of the final group `(£?-?[\d,.-]+)`. -/
def lastAmountSplits (cs : List Char) : List (List Char × List Char) :=
  (optSplits '£' cs).flatMap (fun o1 =>
    (optSplits '-' o1.2).flatMap (fun o2 =>
      (plusSplitsGreedy isAmtC o2.2).map (fun g => (o1.1 ++ o2.1 ++ g.1, g.2))))

/-- A match attempt of the coded-line pattern
`(\d{3,4})\s+([^£]+?)\s+(£[\d,.-]+)\s+(£[\d,.-]+)\s+(£?-?[\d,.-]+)` at the
start of the input: the candidates of each element are tried in the
backtracking priority order of the regex engine (nested `flatMap` is exactly
that depth-first order) and the first complete match wins.  The five
captured groups are returned. -/
def matchCodedAt (cs : List Char) :
    Option (List Char × List Char × List Char × List Char × List Char) :=
  ((repSplits isDigitC [4, 3] cs).flatMap (fun g1 =>
    (plusSplitsGreedy isSpaceC g1.2).flatMap (fun w1 =>
      (plusSplitsLazy isNotPound w1.2).flatMap (fun g2 =>
        (plusSplitsGreedy isSpaceC g2.2).flatMap (fun w2 =>
          (currencySplits w2.2).flatMap (fun g3 =>
            (plusSplitsGreedy isSpaceC g3.2).flatMap (fun w3 =>
              (currencySplits w3.2).flatMap (fun g4 =>
                (plusSplitsGreedy isSpaceC g4.2).flatMap (fun w4 =>
                  (lastAmountSplits w4.2).map (fun g5 =>
                    (g1.1, g2.1, g3.1, g4.1, g5.1))))))))))).head?

/-- A match attempt of the simple pattern
`([^£]+?)\s+(£[\d,.-]+)\s+(£[\d,.-]+)\s+(£?-?[\d,.-]+)` at the start of the
input. -/
def matchSimpleAt (cs : List Char) :
    Option (List Char × List Char × List Char × List Char) :=
  ((plusSplitsLazy isNotPound cs).flatMap (fun g1 =>
    (plusSplitsGreedy isSpaceC g1.2).flatMap (fun w1 =>
      (currencySplits w1.2).flatMap (fun g2 =>
        (plusSplitsGreedy isSpaceC g2.2).flatMap (fun w2 =>
          (currencySplits w2.2).flatMap (fun g3 =>
            (plusSplitsGreedy isSpaceC g3.2).flatMap (fun w3 =>
              (lastAmountSplits w3.2).map (fun g4 =>
                (g1.1, g2.1, g3.1, g4.1))))))))).head?

/-- The `re.search` scan: the match attempt is run at every start position
from left to right and the first position with a match wins. -/
def reSearch {α : Type} (f : List Char → Option α) : List Char → Option α
  | [] => f []
  | c :: rest =>
    match f (c :: rest) with
    | some g => some g
    | none => reSearch f rest

/-- Whitespace strip of Python `str.strip()`. -/
def stripChars (cs : List Char) : List Char :=
  ((cs.dropWhile isSpaceC).reverse.dropWhile isSpaceC).reverse

/-- Python `s.strip()` on a string. -/
def stripStr (s : String) : String := String.mk (stripChars s.data)

/-- Substring membership, the Python `needle in hay`. -/
def containsSub (needle : List Char) : List Char → Bool
  | [] => needle.isEmpty
  | c :: rest => needle.isPrefixOf (c :: rest) || containsSub needle rest

/-- Helper for `wordCount`: the Boolean records whether the scan stands
inside a word. -/
def wordCountAux : List Char → Bool → ℕ
  | [], _ => 0
  | c :: rest, inWord =>
    if isSpaceC c then wordCountAux rest false
    else (if inWord then 0 else 1) + wordCountAux rest true

/-- The number of words of Python `s.split()` (split on whitespace runs,
empty pieces dropped). -/
def wordCount (cs : List Char) : ℕ := wordCountAux cs false

/-- The digit run of a decimal literal read as a natural number. -/
def digitsToNat (cs : List Char) : ℕ :=
  cs.foldl (fun n c => n * 10 + (c.toNat - 48)) 0

/-- Decomposition of a decimal string accepted by Python `float`: an
optional sign, an integer digit run and a fraction digit run, at least one
digit overall, with an optional single dot (exponent forms never arise from
`_clean_currency` input and are not modelled). -/
def decSplitBody (neg : Bool) (cs : List Char) : Option (Bool × List Char × List Char) :=
  let intPart := cs.takeWhile isDigitC
  let rest := cs.drop intPart.length
  match rest with
  | [] => if intPart = [] then none else some (neg, intPart, [])
  | '.' :: frac =>
    if frac.all isDigitC ∧ (intPart ≠ [] ∨ frac ≠ []) then some (neg, intPart, frac)
    else none
  | _ => none

/-- Sign handling of the decimal decomposition. -/
def decSplit (cs : List Char) : Option (Bool × List Char × List Char) :=
  match cs with
  | '-' :: r => decSplitBody true r
  | '+' :: r => decSplitBody false r
  | r => decSplitBody false r

/-- The rational value of a decomposed decimal string. -/
def qOfParts (t : Bool × List Char × List Char) : ℚ :=
  (if t.1 then (-1 : ℚ) else 1) *
    ((digitsToNat t.2.1 : ℚ) + (digitsToNat t.2.2 : ℚ) / (10 : ℚ) ^ t.2.2.length)

/-- `FinancialDataProcessor._clean_currency` (`data_processor.py` lines
119-126): remove every pound sign and comma, strip, parse as a float, and
return 0.0 on a parse failure. -/
def clean_currency (amount : String) : ℚ :=
  let cleaned := stripChars (amount.data.filter (fun c => c ≠ '£' ∧ c ≠ ','))
  ((decSplit cleaned).map qOfParts).getD 0

/-- One record emitted by the PDF line parser. -/
structure FinItem where
  code : String
  description : String
  category : String
  budget_2025_26 : ℚ
  actual_net : ℚ
  balance : ℚ
  itemType : String
deriving DecidableEq, Repr

/-- `FinancialDataProcessor._parse_financial_line` (`data_processor.py`
lines 71-117): search the coded pattern; on a match build the record from
the stripped groups and the cleaned amounts, with type `Income` exactly when
the active category contains `INCOME`.  Otherwise search the simple pattern
and accept only a description of at most 5 words; otherwise no record. -/
def parse_financial_line (line : String) (category : String) : Option FinItem :=
  match reSearch matchCodedAt line.data with
  | some g =>
    some { code := String.mk (stripChars g.1),
           description := String.mk (stripChars g.2.1),
           category := category,
           budget_2025_26 := clean_currency (String.mk g.2.2.1),
           actual_net := clean_currency (String.mk g.2.2.2.1),
           balance := clean_currency (String.mk g.2.2.2.2),
           itemType := if containsSub "INCOME".data category.data then "Income"
                       else "Expenditure" }
  | none =>
    match reSearch matchSimpleAt line.data with
    | some g =>
      if wordCount g.1 ≤ 5 then
        some { code := "",
               description := String.mk (stripChars g.1),
               category := category,
               budget_2025_26 := clean_currency (String.mk g.2.1),
               actual_net := clean_currency (String.mk g.2.2.1),
               balance := clean_currency (String.mk g.2.2.2),
               itemType := if containsSub "INCOME".data category.data then "Income"
                           else "Expenditure" }
      else none
    | none => none

/-- The risk classification exactly as the specification words it: budget
zero first, then the thresholds on `|(budget - actual) / budget * 100|` in
the stated order. -/
def riskCategorySpec (b a : ℚ) : String :=
  if b = 0 then "No Budget"
  else if |(b - a) / b * 100| ≤ 5 then "Low Risk"
  else if |(b - a) / b * 100| ≤ 15 then "Medium Risk"
  else if |(b - a) / b * 100| ≤ 30 then "High Risk"
  else "Critical Risk"

/-- The per-row risk category of the source agrees with the specification
formula on every budget/actual pair. -/
lemma categorize_risk_eq_spec (b a : ℚ) :
    categorize_risk (fillna0 (mulFC (divF (b - a) b) 100)) b = riskCategorySpec b a := by
  by_cases hb : b = 0
  · simp [categorize_risk, riskCategorySpec, hb]
  · simp only [divF, if_neg hb, mulFC, fillna0, categorize_risk, absF, leFC,
      riskCategorySpec, decide_eq_true_eq]

/-- Claim C1: the source computes `variance_pct` with a pandas float
division followed by `fillna(0)`.  At the failing input budget = 0,
actual = 100 the division yields `-inf`, which `fillna(0)` does not replace,
so `variance_pct` is `-inf` and not the 0 the claim requires for every zero
budget row. -/
theorem C1_variance_pct_minus_inf_at_zero_budget :
    (calculate_risk_assessment
        [{ description := "item", category := "General", rowType := "Expenditure",
           budget := 0, actual := 100 }]).map RiskRow.variance_pct =
      [FloatVal.negInf] ∧ FloatVal.negInf ≠ FloatVal.finite 0 := by
  constructor
  · norm_num [calculate_risk_assessment, divF, mulFC, fillna0]
  · decide

/-- Claim C3: risk classification is a total function with exactly the five
categories; the output categories of `calculate_risk_assessment` equal the
specification formula `riskCategorySpec` on every row (so budget = 0 always
gives No Budget, and otherwise the `|variance_pct|` thresholds 5, 15, 30
apply in order), and the formula only takes the five stated values. -/
theorem C3_risk_classification_total (df : List Row) (b a : ℚ) :
    ((calculate_risk_assessment df).map RiskRow.risk_category =
      df.map (fun r => riskCategorySpec r.budget r.actual))
    ∧ riskCategorySpec 0 a = "No Budget"
    ∧ (riskCategorySpec b a = "No Budget" ∨ riskCategorySpec b a = "Low Risk" ∨
       riskCategorySpec b a = "Medium Risk" ∨ riskCategorySpec b a = "High Risk" ∨
       riskCategorySpec b a = "Critical Risk") := by
  refine ⟨?_, by simp [riskCategorySpec], ?_⟩
  · rw [calculate_risk_assessment, List.map_map]
    exact List.map_congr_left (fun r _ => categorize_risk_eq_spec r.budget r.actual)
  · unfold riskCategorySpec
    split_ifs <;> simp

/-- A probability dictionary whose every entry is 100 returns 100 for every
key (present entries by hypothesis, absent keys by the default). -/
lemma dictGet_all100 (m : List (String × ℚ)) (h : ∀ c p, (c, p) ∈ m → p = 100)
    (k : String) : dictGet m k 100 = 100 := by
  induction m with
  | nil => rfl
  | cons e rest ih =>
    rw [dictGet, List.lookup]
    split
    · exact h e.1 e.2 (by
        have : (e.1, e.2) = e := rfl
        rw [this]; exact List.mem_cons_self _ _)
    · exact ih (fun c p hm => h c p (List.mem_cons_of_mem _ hm))

/-- Claim C4: `apply_probability_scenario` computes, for every row, exactly
the factor, remaining budget, projected remaining, projected total and
projected variance formulas of the specification (absent categories
defaulting to 100); and when every probability present in the map is 100,
the projected variance of every output row is 0. -/
theorem C4_apply_probability_scenario (df : List Row) (probs : List (String × ℚ)) :
    (apply_probability_scenario df probs = df.map (fun row =>
      { description := row.description, category := row.category, rowType := row.rowType,
        budget := row.budget, actual := row.actual,
        probability_factor := dictGet probs row.category 100 / 100,
        remaining_budget := row.budget - row.actual,
        projected_remaining := (row.budget - row.actual) * (dictGet probs row.category 100 / 100),
        projected_total :=
          row.actual + (row.budget - row.actual) * (dictGet probs row.category 100 / 100),
        projected_variance :=
          row.budget -
            (row.actual + (row.budget - row.actual) * (dictGet probs row.category 100 / 100)) }))
    ∧ ((∀ c p, (c, p) ∈ probs → p = (100 : ℚ)) →
        (apply_probability_scenario df probs).all
          (fun s => decide (s.projected_variance = 0)) = true) := by
  constructor
  · rfl
  · intro h100
    rw [apply_probability_scenario, List.all_eq_true]
    intro s hs
    rw [List.mem_map] at hs
    obtain ⟨row, _, hrow⟩ := hs
    subst hrow
    rw [decide_eq_true_eq]
    show row.budget - (row.actual + (row.budget - row.actual) *
      (dictGet probs row.category 100 / 100)) = 0
    rw [dictGet_all100 probs h100 row.category]
    ring

/-- Witness for claim C4 at a concrete dataset and an all-100 probability
map: the projected variance of every row is 0. -/
theorem C4_apply_probability_scenario_witness :
    (apply_probability_scenario
        [{ description := "hall", category := "General", rowType := "Expenditure",
           budget := 10, actual := 3 }] [("General", 100)]).all
      (fun s => decide (s.projected_variance = 0)) = true :=
  (C4_apply_probability_scenario
      [{ description := "hall", category := "General", rowType := "Expenditure",
         budget := 10, actual := 3 }] [("General", 100)]).2
    (by intro c p hm; simp at hm; exact hm.2)

/-- Claim C7: the aggregation functions are total on the empty dataset:
the summary is the empty dictionary, and risk assessment and cash flow
projection return empty tables, none of them raising. -/
theorem C7_empty_input_aggregations (months_ahead : ℕ) :
    get_summary_statistics [] = none ∧
    calculate_risk_assessment [] = [] ∧
    generate_cash_flow_projection [] months_ahead = [] :=
  ⟨rfl, rfl, rfl⟩

/-- The CSV of claim C2: header `Item Name, Budgeted, Spent` with one data
row. -/
def itemNameCSV : DF :=
  ⟨[("Item Name", [Value.str "Hall hire"]),
    ("Budgeted", [Value.num 100]),
    ("Spent", [Value.num 40])]⟩

/-- Counterexample to claim C2: on the columns
`["Item Name", "Budgeted", "Spent"]` the reconciler does not succeed.  The
normalized name `item_name` is matched by exact membership against the
description aliases (`description`, `desc`, `item`, `name`, `details`) and
none is equal to it, so no column is renamed to `description` and the
essential-column check rejects the upload. -/
theorem C2_item_name_counterexample :
    (renameDF (normalizeDF itemNameCSV)).names = ["item_name", "budget", "actual"] ∧
    process_csv itemNameCSV = Except.error ["description"] := by decide

/-- Claim C2 as amended: normalization gives `item_name, budgeted, spent`;
`budgeted` maps to `budget` and `spent` to `actual`, but `item_name` matches
no description alias, so reconciliation fails with exactly `description`
reported missing. -/
theorem C2_item_name_amended :
    (normalizeDF itemNameCSV).names = ["item_name", "budgeted", "spent"] ∧
    buildColumnMap ["item_name", "budgeted", "spent"] =
      [("budgeted", "budget"), ("spent", "actual")] ∧
    (renameDF (normalizeDF itemNameCSV)).names = ["item_name", "budget", "actual"] ∧
    missingEssential (renameDF (normalizeDF itemNameCSV)) = ["description"] ∧
    process_csv itemNameCSV = Except.error ["description"] := by decide

/-- A successful find over the left part of an append is the find over the
whole. -/
lemma find?_append_left {α : Type} (p : α → Bool) (l1 l2 : List α) (a : α)
    (h : List.find? p l1 = some a) : List.find? p (l1 ++ l2) = some a := by
  rw [List.find?_append, h]; rfl

/-- A failed find over the left part of an append defers to the right part. -/
lemma find?_append_right {α : Type} (p : α → Bool) (l1 l2 : List α)
    (h : List.find? p l1 = none) : List.find? p (l1 ++ l2) = List.find? p l2 := by
  rw [List.find?_append, h]; rfl

/-- Appending columns preserves every column name already present. -/
lemma names_contains_append (cols extra : List (String × List Value)) (c : String)
    (h : (DF.mk cols).names.contains c = true) :
    (DF.mk (cols ++ extra)).names.contains c = true := by
  rw [List.elem_iff] at h ⊢
  rw [DF.names] at h ⊢
  rw [List.map_append]
  exact List.mem_append.mpr (Or.inl h)

/-- `addDerived` only appends columns, so every name present before is
present after. -/
lemma addDerived_preserves_names (df : DF) (c : String)
    (h : df.names.contains c = true) : (addDerived df).names.contains c = true := by
  obtain ⟨cols⟩ := df
  rw [addDerived]
  dsimp only
  split
  · split
    · split
      · exact names_contains_append _ _ _ (names_contains_append _ _ _
          (names_contains_append _ _ _ h))
      · exact names_contains_append _ _ _ (names_contains_append _ _ _ h)
    · split
      · exact names_contains_append _ _ _ (names_contains_append _ _ _ h)
      · exact names_contains_append _ _ _ h
  · split
    · split
      · exact names_contains_append _ _ _ (names_contains_append _ _ _ h)
      · exact names_contains_append _ _ _ h
    · split
      · exact names_contains_append _ _ _ h
      · exact h

/-- An empty essential filter means every essential name is present. -/
lemma missingEssential_nil_contains (df : DF) (h : missingEssential df = [])
    (c : String) (hc : c ∈ essential_cols) : df.names.contains c = true := by
  rw [missingEssential, List.filter_eq_nil_iff] at h
  have := h c hc
  simpa using this

/-- Claim C5: whenever an essential canonical column (description, budget,
actual) is absent after alias mapping, `process_csv` rejects the whole
upload with exactly the list of missing canonical names; and every
successful result carries all three essential columns, so no dataset with a
proper subset of them is ever returned. -/
theorem C5_missing_essentials_reject (df : DF) :
    (missingEssential (renameDF (normalizeDF df)) ≠ [] →
      process_csv df = Except.error (missingEssential (renameDF (normalizeDF df))))
    ∧ (∀ out : DF, process_csv df = Except.ok out →
        missingEssential (renameDF (normalizeDF df)) = [] ∧
        essential_cols.all (fun c => out.names.contains c) = true) := by
  constructor
  · intro hne
    rw [process_csv, map_csv_columns]
    simp only [if_neg hne]
  · intro out hok
    rw [process_csv, map_csv_columns] at hok
    by_cases hmiss : missingEssential (renameDF (normalizeDF df)) = []
    · refine ⟨hmiss, ?_⟩
      simp only [if_pos hmiss] at hok
      by_cases hn : (renameDF (normalizeDF df)).nrows = 0
      · rw [if_pos hn] at hok
        cases hok
        rw [List.all_eq_true]
        intro c hc
        exact missingEssential_nil_contains _ hmiss c (by simpa using hc)
      · rw [if_neg hn] at hok
        cases hok
        rw [List.all_eq_true]
        intro c hc
        exact addDerived_preserves_names _ c
          (missingEssential_nil_contains _ hmiss c (by simpa using hc))
    · simp only [if_neg hmiss] at hok
      cases hok

/-- The CSV of the specification example for a failing upload: columns
`foo, bar` only. -/
def fooBarCSV : DF := ⟨[("foo", [Value.str "x"]), ("bar", [Value.num 1])]⟩

/-- Witness for claim C5 at the concrete columns `["foo", "bar"]`: the
upload is rejected with all three essential names reported missing. -/
theorem C5_missing_essentials_reject_witness :
    process_csv fooBarCSV = Except.error ["description", "budget", "actual"] := by
  have h := (C5_missing_essentials_reject fooBarCSV).1 (by decide)
  rw [h]
  decide

/-- A map by a function that fixes every member is the identity. -/
lemma listMapIdOn {α : Type} (f : α → α) :
    ∀ (l : List α), (∀ x ∈ l, f x = x) → l.map f = l
  | [], _ => rfl
  | x :: xs, h => by
    rw [List.map_cons, h x (List.mem_cons_self x xs),
      listMapIdOn f xs (fun y hy => h y (List.mem_cons_of_mem x hy))]

/-- A lookup with fallback in an association list whose every pair is
reflexive returns the key itself. -/
lemma lookup_getD_self (m : List (String × String)) (hm : ∀ p ∈ m, p.1 = p.2)
    (n : String) : (List.lookup n m).getD n = n := by
  induction m with
  | nil => rfl
  | cons p rest ih =>
    rw [List.lookup]
    split
    · next heq =>
      have hn : n = p.1 := by simpa using heq
      rw [Option.getD_some, ← hm p (List.mem_cons_self _ _), hn]
    · exact ih (fun q hq => hm q (List.mem_cons_of_mem _ hq))

/-- The identity column map produced on an already canonical frame. -/
def canonicalColumnMap : List (String × String) :=
  [("description", "description"), ("budget", "budget"), ("actual", "actual"),
   ("category", "category"), ("balance", "balance"), ("code", "code")]

/-- When every canonical target name is itself a present column, the alias
scan picks each canonical name (the first alias of its own list) and the
column map is the identity. -/
lemma buildColumnMap_canonical (cols : List String)
    (hd : cols.contains "description" = true) (hb : cols.contains "budget" = true)
    (ha : cols.contains "actual" = true) (hc : cols.contains "category" = true)
    (hl : cols.contains "balance" = true) (hk : cols.contains "code" = true) :
    buildColumnMap cols = canonicalColumnMap := by
  rw [buildColumnMap, column_mappings]
  simp only [List.flatMap_cons, List.flatMap_nil, List.append_nil]
  rw [List.find?_cons_of_pos _ hd, List.find?_cons_of_pos _ hb,
    List.find?_cons_of_pos _ ha, List.find?_cons_of_pos _ hc,
    List.find?_cons_of_pos _ hl, List.find?_cons_of_pos _ hk]
  rfl

/-- Claim C6: reconciling an already canonical frame (normalized column
names, with the canonical columns description, budget, actual, category,
balance, code and type all present) is a no-op: `process_csv` returns the
frame unchanged. -/
theorem C6_reconciliation_idempotent (df : DF)
    (hnorm : (df.names.all (fun n => normName n == n)) = true)
    (hcols : (["description", "budget", "actual", "category", "balance", "code",
      "type"].all (fun c => df.names.contains c)) = true) :
    process_csv df = Except.ok df := by
  rw [List.all_eq_true] at hnorm hcols
  have hN : normalizeDF df = df := by
    obtain ⟨cols⟩ := df
    rw [normalizeDF]
    congr 1
    apply listMapIdOn
    intro p hp
    have hmem : p.1 ∈ (DF.mk cols).names := by
      rw [DF.names]
      exact List.mem_map.mpr ⟨p, hp, rfl⟩
    have : normName p.1 = p.1 := by simpa using hnorm p.1 hmem
    rw [this]
  have hmap : buildColumnMap df.names = canonicalColumnMap :=
    buildColumnMap_canonical df.names
      (by simpa using hcols "description" (by simp))
      (by simpa using hcols "budget" (by simp))
      (by simpa using hcols "actual" (by simp))
      (by simpa using hcols "category" (by simp))
      (by simpa using hcols "balance" (by simp))
      (by simpa using hcols "code" (by simp))
  have hR : renameDF df = df := by
    obtain ⟨cols⟩ := df
    rw [renameDF]
    dsimp only
    rw [hmap]
    congr 1
    apply listMapIdOn
    intro p _
    rw [lookup_getD_self canonicalColumnMap (by decide) p.1]
  have hmiss : missingEssential df = [] := by
    rw [missingEssential, List.filter_eq_nil_iff]
    intro c hcmem
    have hc7 : c ∈ ["description", "budget", "actual", "category", "balance", "code",
        "type"] := by
      rw [essential_cols] at hcmem
      simp only [List.mem_cons, List.not_mem_nil, or_false] at hcmem
      rcases hcmem with rfl | rfl | rfl <;> simp
    have := hcols c hc7
    simp only [this, Bool.not_true, Bool.false_eq_true, not_false_eq_true]
  have hA : addDerived df = df := by
    have hb := hcols "balance" (by simp)
    have hca := hcols "category" (by simp)
    have hty := hcols "type" (by simp)
    rw [addDerived]
    simp only [hb, hca, hty, Bool.not_true, Bool.false_and, if_neg, ite_false,
      Bool.false_eq_true, if_false]
  rw [process_csv, hN, map_csv_columns]
  rw [hR, hmiss]
  rw [if_pos rfl]
  show (if df.nrows = 0 then Except.ok df else Except.ok (addDerived df)) = Except.ok df
  rw [hA, ite_self]

/-- Witness for claim C6 at a concrete canonical frame. -/
theorem C6_reconciliation_idempotent_witness :
    process_csv ⟨[("description", [Value.str "a"]), ("budget", [Value.num 5]),
      ("actual", [Value.num 2]), ("category", [Value.str "General"]),
      ("balance", [Value.num 3]), ("code", [Value.str "x"]),
      ("type", [Value.str "Expenditure"])]⟩ =
    Except.ok ⟨[("description", [Value.str "a"]), ("budget", [Value.num 5]),
      ("actual", [Value.num 2]), ("category", [Value.str "General"]),
      ("balance", [Value.num 3]), ("code", [Value.str "x"]),
      ("type", [Value.str "Expenditure"])]⟩ :=
  C6_reconciliation_idempotent _ (by decide) (by decide)

/-- A lookup over an append searches the left list first. -/
lemma lookup_append (k : String) (l1 l2 : List (String × String)) :
    List.lookup k (l1 ++ l2) =
      (List.lookup k l1).orElse (fun _ => List.lookup k l2) := by
  induction l1 with
  | nil => rfl
  | cons p rest ih =>
    rw [List.cons_append, List.lookup, List.lookup]
    split
    · rfl
    · exact ih

/-- A successful lookup is a membership. -/
lemma lookup_mem (k v : String) (m : List (String × String))
    (h : List.lookup k m = some v) : (k, v) ∈ m := by
  induction m with
  | nil => simp [List.lookup] at h
  | cons p rest ih =>
    rw [List.lookup] at h
    split at h
    · next heq =>
      cases h
      have : k = p.1 := by simpa using heq
      subst this
      exact List.mem_cons_self _ _
    · exact List.mem_cons_of_mem _ (ih h)

/-- A key outside the alias list of one alias-table entry is not bound by
that entry. -/
lemma lookup_entry_none (k target : String) (aliases : List String)
    (p : String → Bool) (hk : k ∉ aliases) :
    List.lookup k (match List.find? p aliases with
      | some a => [(a, target)] | none => []) = none := by
  cases hfind : List.find? p aliases with
  | none => rfl
  | some a =>
    have ha : a ∈ aliases := List.mem_of_find?_eq_some hfind
    have hne : (k == a) = false := by
      rw [beq_eq_false_iff_ne]
      exact fun h => hk (h ▸ ha)
    rw [List.lookup, hne]
    rfl

/-- When `category` and `cat` are absent but `type` is present, the alias
scan of the `category` target selects the column `type`. -/
lemma find?_category_alias (cols : List String)
    (hcat : cols.contains "category" = false) (hcat2 : cols.contains "cat" = false)
    (hty : cols.contains "type" = true) :
    List.find? (fun a => cols.contains a) ["category", "cat", "type", "group", "section"] =
      some "type" := by
  rw [List.find?_cons_of_neg _ (show ¬ cols.contains "category" = true by rw [hcat]; decide),
    List.find?_cons_of_neg _ (show ¬ cols.contains "cat" = true by rw [hcat2]; decide),
    List.find?_cons_of_pos _ hty]

/-- Under the hypotheses of `find?_category_alias`, the column map binds
`type` to the target `category`. -/
lemma buildColumnMap_lookup_type (cols : List String)
    (hcat : cols.contains "category" = false) (hcat2 : cols.contains "cat" = false)
    (hty : cols.contains "type" = true) :
    List.lookup "type" (buildColumnMap cols) = some "category" := by
  rw [buildColumnMap, column_mappings]
  simp only [List.flatMap_cons, List.flatMap_nil, List.append_nil]
  rw [lookup_append, lookup_entry_none "type" _ _ _ (by decide),
    lookup_append, lookup_entry_none "type" _ _ _ (by decide),
    lookup_append, lookup_entry_none "type" _ _ _ (by decide),
    lookup_append, find?_category_alias cols hcat hcat2 hty]
  rfl

/-- The target of any binding of the column map is one of the six canonical
target names. -/
lemma buildColumnMap_target_mem (cols : List String) (k t : String)
    (h : (k, t) ∈ buildColumnMap cols) :
    t ∈ ["description", "budget", "actual", "category", "balance", "code"] := by
  rw [buildColumnMap, List.mem_flatMap] at h
  obtain ⟨tp, htp, hmem⟩ := h
  have hsnd : t = tp.1 := by
    revert hmem
    cases List.find? (fun a => cols.contains a) tp.2 with
    | none => intro hmem; cases hmem
    | some a =>
      intro hmem
      injection List.mem_singleton.mp hmem with h1 h2
  rw [hsnd]
  rw [column_mappings] at htp
  simp only [List.mem_cons, List.not_mem_nil, or_false] at htp
  rcases htp with rfl | rfl | rfl | rfl | rfl | rfl <;> simp

/-- Under the hypotheses of `find?_category_alias`, the only binding of the
column map whose target is `category` has the key `type`. -/
lemma buildColumnMap_category_key (cols : List String)
    (hcat : cols.contains "category" = false) (hcat2 : cols.contains "cat" = false)
    (hty : cols.contains "type" = true) (k : String)
    (h : (k, "category") ∈ buildColumnMap cols) : k = "type" := by
  rw [buildColumnMap, List.mem_flatMap] at h
  obtain ⟨tp, htp, hmem⟩ := h
  rw [column_mappings] at htp
  simp only [List.mem_cons, List.not_mem_nil, or_false] at htp
  rcases htp with rfl | rfl | rfl | rfl | rfl | rfl
  · revert hmem
    cases List.find? (fun a => cols.contains a)
        ["description", "desc", "item", "name", "details"] with
    | none => intro hmem; cases hmem
    | some a =>
      intro hmem
      injection List.mem_singleton.mp hmem with h1 h2
      exact absurd h2 (by decide)
  · revert hmem
    cases List.find? (fun a => cols.contains a)
        ["budget", "budget_2025_26", "budgeted", "planned", "allocation"] with
    | none => intro hmem; cases hmem
    | some a =>
      intro hmem
      injection List.mem_singleton.mp hmem with h1 h2
      exact absurd h2 (by decide)
  · revert hmem
    cases List.find? (fun a => cols.contains a)
        ["actual", "actual_net", "spent", "used", "expenditure"] with
    | none => intro hmem; cases hmem
    | some a =>
      intro hmem
      injection List.mem_singleton.mp hmem with h1 h2
      exact absurd h2 (by decide)
  · rw [find?_category_alias cols hcat hcat2 hty] at hmem
    injection List.mem_singleton.mp hmem with h1 h2
  · revert hmem
    cases List.find? (fun a => cols.contains a)
        ["balance", "remaining", "variance", "difference"] with
    | none => intro hmem; cases hmem
    | some a =>
      intro hmem
      injection List.mem_singleton.mp hmem with h1 h2
      exact absurd h2 (by decide)
  · revert hmem
    cases List.find? (fun a => cols.contains a)
        ["code", "account_code", "ref", "reference", "id"] with
    | none => intro hmem; cases hmem
    | some a =>
      intro hmem
      injection List.mem_singleton.mp hmem with h1 h2
      exact absurd h2 (by decide)

/-- The column named `target` of a renamed frame is the column named
`source` of the original, whenever the renaming sends exactly the
source-named columns to the target name. -/
lemma getCol_rename (ren : String → String) (target source : String) :
    ∀ (cols : List (String × List Value)),
      (∀ p ∈ cols, (ren p.1 = target ↔ p.1 = source)) →
      (DF.mk (cols.map (fun p => (ren p.1, p.2)))).getCol target =
        (DF.mk cols).getCol source
  | [], _ => rfl
  | p :: rest, h => by
    have hhead := h p (List.mem_cons_self _ _)
    have htail := fun q hq => h q (List.mem_cons_of_mem _ hq)
    by_cases hsrc : p.1 = source
    · have htgt : ren p.1 = target := hhead.mpr hsrc
      rw [List.map_cons, DF.getCol, DF.getCol,
        @List.find?_cons_of_pos _ (fun q => q.1 == target) (ren p.1, p.2) _ (by simp [htgt]),
        @List.find?_cons_of_pos _ (fun q => q.1 == source) p _ (by simp [hsrc])]
      rfl
    · have htgt : ¬ ren p.1 = target := fun hc => hsrc (hhead.mp hc)
      rw [List.map_cons, DF.getCol, DF.getCol,
        @List.find?_cons_of_neg _ (fun q => q.1 == target) (ren p.1, p.2) _ (by simp [htgt]),
        @List.find?_cons_of_neg _ (fun q => q.1 == source) p _ (by simp [hsrc])]
      exact getCol_rename ren target source rest htail

/-- A frame without a column named `n` yields no column for `n`. -/
lemma getCol_none_of_not_contains (df : DF) (n : String)
    (h : df.names.contains n = false) : df.getCol n = none := by
  rw [DF.getCol]
  have : List.find? (fun p => p.1 == n) df.cols = none := by
    rw [List.find?_eq_none]
    intro p hp hbeq
    have : p.1 = n := by simpa using hbeq
    have hmem : n ∈ df.names := by
      rw [DF.names]
      exact List.mem_map.mpr ⟨p, hp, this⟩
    have hc : df.names.contains n = true := List.elem_iff.mpr hmem
    rw [hc] at h
    cases h
  rw [this]
  rfl

/-- A frame containing a column named `n` yields a column for `n`. -/
lemma getCol_isSome_of_contains (df : DF) (n : String)
    (h : df.names.contains n = true) : ∃ v, df.getCol n = some v := by
  have hmem : n ∈ df.names := List.elem_iff.mp h
  rw [DF.names] at hmem
  obtain ⟨p, hp, hfst⟩ := List.mem_map.mp hmem
  have : (List.find? (fun p => p.1 == n) df.cols).isSome := by
    rw [List.find?_isSome]
    exact ⟨p, hp, by simp [hfst]⟩
  obtain ⟨q, hq⟩ := Option.isSome_iff_exists.mp this
  exact ⟨q.2, by rw [DF.getCol, hq]; rfl⟩

/-- Appending columns does not change an already present column. -/
lemma getCol_append_of_some (cols extra : List (String × List Value)) (n : String)
    (v : List Value) (h : (DF.mk cols).getCol n = some v) :
    (DF.mk (cols ++ extra)).getCol n = some v := by
  rw [DF.getCol] at h ⊢
  cases hf : List.find? (fun p => p.1 == n) cols with
  | none => rw [hf] at h; cases h
  | some q =>
    rw [hf] at h
    rw [find?_append_left _ _ _ _ hf]
    exact h

/-- A column absent on the left of an append is looked up on the right. -/
lemma getCol_append_of_none (cols extra : List (String × List Value)) (n : String)
    (h : (DF.mk cols).getCol n = none) :
    (DF.mk (cols ++ extra)).getCol n = (DF.mk extra).getCol n := by
  rw [DF.getCol] at h ⊢
  cases hf : List.find? (fun p => p.1 == n) cols with
  | some q => rw [hf] at h; cases h
  | none =>
    rw [find?_append_right _ _ _ hf]
    rfl

/-- The names of an append of column lists. -/
lemma names_append_eq (cols extra : List (String × List Value)) :
    (DF.mk (cols ++ extra)).names = (DF.mk cols).names ++ (DF.mk extra).names := by
  rw [DF.names, DF.names, DF.names, List.map_append]

/-- Appending one differently named column keeps an absent name absent. -/
lemma contains_append_single_false (l : List String) (x c : String)
    (h : l.contains c = false) (hx : x ≠ c) : (l ++ [x]).contains c = false := by
  cases hb : (l ++ [x]).contains c
  · rfl
  · exfalso
    have hm : c ∈ l ++ [x] := List.elem_iff.mp hb
    rcases List.mem_append.mp hm with hml | hmx
    · have hc : l.contains c = true := List.elem_iff.mpr hml
      rw [hc] at h
      cases h
    · have : c = x := by simpa using hmx
      exact hx this.symm

/-- On a frame that already has `category` and `budget` columns but no
`type` column, the derived-column block keeps the `category` column
untouched and appends a `type` column derived from the budget column by
`valTypeOfBudget`. -/
lemma addDerived_getCol (df : DF)
    (hcat : df.names.contains "category" = true)
    (hbud : df.names.contains "budget" = true)
    (hty : df.names.contains "type" = false) :
    (addDerived df).getCol "category" = df.getCol "category" ∧
    (addDerived df).getCol "type" = some ((df.getColD "budget").map valTypeOfBudget) := by
  obtain ⟨vc, hvc⟩ := getCol_isSome_of_contains df "category" hcat
  obtain ⟨vb, hvb⟩ := getCol_isSome_of_contains df "budget" hbud
  have hgd : df.getColD "budget" = vb := by rw [DF.getColD, hvb]; rfl
  rw [hgd]
  simp only [addDerived]
  by_cases h1 : (!(df.names.contains "balance") && df.names.contains "budget"
      && df.names.contains "actual") = true
  · rw [if_pos h1]
    generalize List.zipWith valSub (df.getColD "budget") (df.getColD "actual") = bcol
    have hcat1 : (DF.mk (df.cols ++ [("balance", bcol)])).names.contains "category" = true := by
      rw [names_append_eq]
      exact List.elem_iff.mpr (List.mem_append.mpr (Or.inl (List.elem_iff.mp hcat)))
    have hbud1 : (DF.mk (df.cols ++ [("balance", bcol)])).names.contains "budget" = true := by
      rw [names_append_eq]
      exact List.elem_iff.mpr (List.mem_append.mpr (Or.inl (List.elem_iff.mp hbud)))
    have hty1 : (DF.mk (df.cols ++ [("balance", bcol)])).names.contains "type" = false := by
      rw [names_append_eq]
      show (df.names ++ ["balance"]).contains "type" = false
      exact contains_append_single_false _ _ _ hty (by decide)
    rw [if_neg (show ¬ (!(DF.mk (df.cols ++ [("balance", bcol)])).names.contains
        "category") = true by rw [hcat1]; decide)]
    rw [if_pos (show (!(DF.mk (df.cols ++ [("balance", bcol)])).names.contains "type" &&
        (DF.mk (df.cols ++ [("balance", bcol)])).names.contains "budget") = true by
      rw [hty1, hbud1]; rfl)]
    have hvc1 : (DF.mk (df.cols ++ [("balance", bcol)])).getCol "category" = some vc :=
      getCol_append_of_some _ _ _ _ hvc
    have hvb1 : (DF.mk (df.cols ++ [("balance", bcol)])).getCol "budget" = some vb :=
      getCol_append_of_some _ _ _ _ hvb
    have hgd1 : (DF.mk (df.cols ++ [("balance", bcol)])).getColD "budget" = vb := by
      rw [DF.getColD, hvb1]; rfl
    rw [hgd1]
    constructor
    · rw [getCol_append_of_some _ _ _ _ hvc1, hvc]
    · rw [getCol_append_of_none _ _ _ (getCol_none_of_not_contains _ _ hty1)]
      rfl
  · rw [if_neg h1]
    rw [if_neg (show ¬ (!(df.names.contains "category")) = true by rw [hcat]; decide)]
    rw [if_pos (show (!(df.names.contains "type") && df.names.contains "budget") = true by
      rw [hty, hbud]; rfl)]
    rw [hgd]
    constructor
    · rw [getCol_append_of_some _ _ _ _ hvc, hvc]
    · rw [getCol_append_of_none _ _ _ (getCol_none_of_not_contains _ _ hty)]
      rfl

/-- The renaming function applied to each column name by `renameDF`. -/
def renFn (cols : List String) (n : String) : String :=
  (List.lookup n (buildColumnMap cols)).getD n

/-- `renameDF` maps every column through `renFn` of the column names. -/
lemma renameDF_eq (df : DF) :
    renameDF df = DF.mk (df.cols.map (fun p => (renFn df.names p.1, p.2))) := rfl

/-- The names of a renamed frame are the images of the old names. -/
lemma renameDF_names (df : DF) :
    (renameDF df).names = df.names.map (renFn df.names) := by
  rw [renameDF_eq, DF.names, DF.names, List.map_map, List.map_map]
  rfl

/-- A header-only upload: the four columns of a budget CSV with a user
`Type` column and zero data rows. -/
def headerOnlyCSV : DF :=
  ⟨[("Description", []), ("Budget", []), ("Actual", []), ("Type", [])]⟩

/-- Counterexample to claim C10 as stated: the header-only upload has
`type` among its normalized columns and neither `category` nor `cat`, and
its reconciliation succeeds with the user `type` column renamed to
`category`; but the mapped frame has zero rows, so the `if df.empty` early
return of `process_csv` skips the derived-column block and no fresh `type`
column is ever created. -/
theorem C10_header_only_counterexample :
    (normalizeDF headerOnlyCSV).names = ["description", "budget", "actual", "type"] ∧
    (normalizeDF headerOnlyCSV).names.contains "category" = false ∧
    (normalizeDF headerOnlyCSV).names.contains "cat" = false ∧
    process_csv headerOnlyCSV =
      Except.ok ⟨[("description", []), ("budget", []), ("actual", []), ("category", [])]⟩ ∧
    (DF.mk [("description", []), ("budget", []), ("actual", []),
      ("category", [])]).getCol "type" = none := by decide

/-- Claim C10 as amended: on an upload with at least one data row whose
normalized columns include `type` but neither `category` nor `cat`, and
whose mapped budget and actual columns are numeric (on non-numeric cells
the program raises a TypeError in the derived-column block, caught by the
outer `except`, and the upload fails), a successful reconciliation renames
the user `type` column to `category` -- so the category column of the
result carries the original type labels -- and appends a fresh `type`
column computed from the sign of each budget cell: negative gives Income,
anything else Expenditure.  On a header-only upload the rename still
happens but the derived-column block is skipped and the result has no
`type` column. -/
theorem C10_user_type_column_amended (df out : DF) (bs as : List ℚ)
    (hok : process_csv df = Except.ok out)
    (hty : (normalizeDF df).names.contains "type" = true)
    (hcat : (normalizeDF df).names.contains "category" = false)
    (hcat2 : (normalizeDF df).names.contains "cat" = false)
    (hrows : (renameDF (normalizeDF df)).nrows ≠ 0)
    (hbs : (renameDF (normalizeDF df)).getColD "budget" = bs.map Value.num)
    (has : (renameDF (normalizeDF df)).getColD "actual" = as.map Value.num) :
    out.getCol "category" = (normalizeDF df).getCol "type" ∧
    out.getCol "type" =
      some (bs.map (fun q => Value.str (if q < 0 then "Income" else "Expenditure"))) := by
  rw [process_csv, map_csv_columns] at hok
  by_cases hmiss : missingEssential (renameDF (normalizeDF df)) = []
  case neg =>
    rw [if_neg hmiss] at hok
    cases hok
  rw [if_pos hmiss] at hok
  replace hok : (if (renameDF (normalizeDF df)).nrows = 0 then
      Except.ok (renameDF (normalizeDF df))
    else Except.ok (addDerived (renameDF (normalizeDF df)))) = Except.ok out := hok
  rw [if_neg hrows] at hok
  injection hok with hout
  have hB1 : List.lookup "type" (buildColumnMap (normalizeDF df).names) = some "category" :=
    buildColumnMap_lookup_type _ hcat hcat2 hty
  have hren_type : renFn (normalizeDF df).names "type" = "category" := by
    rw [renFn, hB1]
    rfl
  have hren_char : ∀ n, n ∈ (normalizeDF df).names →
      (renFn (normalizeDF df).names n = "category" ↔ n = "type") := by
    intro n hn
    constructor
    · intro hr
      rw [renFn] at hr
      cases hl : List.lookup n (buildColumnMap (normalizeDF df).names) with
      | none =>
        rw [hl] at hr
        have hnc : n = "category" := by simpa using hr
        have : (normalizeDF df).names.contains "category" = true :=
          List.elem_iff.mpr (hnc ▸ hn)
        rw [this] at hcat
        cases hcat
      | some t =>
        rw [hl] at hr
        have htc : t = "category" := by simpa using hr
        exact buildColumnMap_category_key _ hcat hcat2 hty n (htc ▸ lookup_mem _ _ _ hl)
    · intro hnt
      rw [hnt]
      exact hren_type
  have hren_ne_type : ∀ n, renFn (normalizeDF df).names n ≠ "type" := by
    intro n hcontra
    rw [renFn] at hcontra
    cases hl : List.lookup n (buildColumnMap (normalizeDF df).names) with
    | none =>
      rw [hl] at hcontra
      have hnt : n = "type" := by simpa using hcontra
      rw [hnt, hB1] at hl
      cases hl
    | some t =>
      rw [hl] at hcontra
      have htt : t = "type" := by simpa using hcontra
      have := buildColumnMap_target_mem _ _ _ (lookup_mem _ _ _ hl)
      rw [htt] at this
      exact absurd this (by decide)
  have hctym : (renameDF (normalizeDF df)).names.contains "type" = false := by
    cases hb : (renameDF (normalizeDF df)).names.contains "type"
    · rfl
    · exfalso
      have hm := List.elem_iff.mp hb
      rw [renameDF_names] at hm
      obtain ⟨n, _, hn⟩ := List.mem_map.mp hm
      exact hren_ne_type n hn
  have hccatm : (renameDF (normalizeDF df)).names.contains "category" = true := by
    have hm : "type" ∈ (normalizeDF df).names := List.elem_iff.mp hty
    have : "category" ∈ (renameDF (normalizeDF df)).names := by
      rw [renameDF_names]
      exact List.mem_map.mpr ⟨"type", hm, hren_type⟩
    exact List.elem_iff.mpr this
  have hcbudm : (renameDF (normalizeDF df)).names.contains "budget" = true :=
    missingEssential_nil_contains _ hmiss "budget" (by rw [essential_cols]; simp)
  have hcatm : (renameDF (normalizeDF df)).getCol "category" =
      (normalizeDF df).getCol "type" := by
    rw [renameDF_eq]
    apply getCol_rename
    intro p hp
    apply hren_char
    rw [DF.names]
    exact List.mem_map.mpr ⟨p, hp, rfl⟩
  have hder := addDerived_getCol (renameDF (normalizeDF df)) hccatm hcbudm hctym
  constructor
  · rw [← hout, hder.1, hcatm]
  · rw [← hout, hder.2, hbs, List.map_map]
    exact congrArg some (List.map_congr_left (fun q _ => rfl))

/-- The CSV of the C10 witness: one data row, a user `Type` column, no
category column, numeric budget and actual cells. -/
def typedCSV : DF :=
  ⟨[("Description", [Value.str "Precept"]), ("Budget", [Value.num (-5)]),
    ("Actual", [Value.num 2]), ("Type", [Value.str "Grant"])]⟩

/-- Witness for claim C10 at a concrete one-row upload: the user label
`Grant` lands in the `category` column and the fresh `type` column is
derived from the negative budget as `Income`. -/
theorem C10_user_type_column_amended_witness :
    process_csv typedCSV = Except.ok (addDerived (renameDF (normalizeDF typedCSV))) ∧
    (addDerived (renameDF (normalizeDF typedCSV))).getCol "category" =
      some [Value.str "Grant"] ∧
    (addDerived (renameDF (normalizeDF typedCSV))).getCol "type" =
      some [Value.str "Income"] := by
  have h := C10_user_type_column_amended typedCSV
    (addDerived (renameDF (normalizeDF typedCSV))) [(-5 : ℚ)] [(2 : ℚ)]
    rfl (by decide) (by decide) (by decide) (by decide) (by decide) (by decide)
  refine ⟨rfl, ?_, ?_⟩
  · rw [h.1]
    decide
  · rw [h.2]
    decide

/-- Indexing with a default into a sorted list is monotone on valid
indices. -/
lemma getD_mono_of_sorted (s : List ℚ) (hs : List.Sorted (· ≤ ·) s) (i j : ℕ)
    (hij : i ≤ j) (hj : j < s.length) : s.getD i 0 ≤ s.getD j 0 := by
  rw [List.getD_eq_getElem s 0 (lt_of_le_of_lt hij hj), List.getD_eq_getElem s 0 hj]
  rcases lt_or_eq_of_le hij with hlt | heq
  · exact hs.rel_get_of_lt hlt
  · subst heq
    exact le_refl _

/-- The linear interpolation into a sorted list is monotone in the virtual
index over the valid range. -/
lemma interpAt_mono (s : List ℚ) (hs : List.Sorted (· ≤ ·) s) (hne : s ≠ [])
    (h1 h2 : ℚ) (h0 : 0 ≤ h1) (h12 : h1 ≤ h2) (hub : h2 ≤ (s.length : ℚ) - 1) :
    interpAt s h1 ≤ interpAt s h2 := by
  have hn : 1 ≤ s.length := List.length_pos.mpr hne
  have h0₂ : (0 : ℚ) ≤ h2 := le_trans h0 h12
  have hfl1 : ((⌊h1⌋.toNat : ℤ) : ℚ) = (⌊h1⌋ : ℚ) := by
    rw [Int.toNat_of_nonneg (Int.floor_nonneg.mpr h0)]
  have hfl2 : ((⌊h2⌋.toNat : ℤ) : ℚ) = (⌊h2⌋ : ℚ) := by
    rw [Int.toNat_of_nonneg (Int.floor_nonneg.mpr h0₂)]
  have hcast : ((s.length : ℚ) - 1) = ((s.length - 1 : ℕ) : ℚ) := by
    push_cast [Nat.cast_sub hn]
    ring
  have hi2top : ⌊h2⌋.toNat ≤ s.length - 1 := by
    rw [Int.toNat_le]
    calc ⌊h2⌋ ≤ ⌊(s.length : ℚ) - 1⌋ := Int.floor_le_floor hub
    _ = ((s.length - 1 : ℕ) : ℤ) := by rw [hcast, Int.floor_natCast]
  have hi12 : ⌊h1⌋.toNat ≤ ⌊h2⌋.toNat := Int.toNat_le_toNat (Int.floor_le_floor h12)
  have hi1top : ⌊h1⌋.toNat ≤ s.length - 1 := le_trans hi12 hi2top
  have htop : s.length - 1 < s.length := by omega
  have hf1lo : (0 : ℚ) ≤ h1 - (⌊h1⌋.toNat : ℚ) := by
    have := Int.floor_le h1
    push_cast [← hfl1] at this ⊢
    linarith
  have hf1hi : h1 - (⌊h1⌋.toNat : ℚ) ≤ 1 := by
    have := Int.lt_floor_add_one h1
    push_cast [← hfl1] at this ⊢
    linarith
  have hf2lo : (0 : ℚ) ≤ h2 - (⌊h2⌋.toNat : ℚ) := by
    have := Int.floor_le h2
    push_cast [← hfl2] at this ⊢
    linarith
  rw [interpAt, interpAt]
  have hj1 : min (⌊h1⌋.toNat + 1) (s.length - 1) < s.length :=
    lt_of_le_of_lt (min_le_right _ _) htop
  have hj2 : min (⌊h2⌋.toNat + 1) (s.length - 1) < s.length :=
    lt_of_le_of_lt (min_le_right _ _) htop
  have hab1 : s.getD ⌊h1⌋.toNat 0 ≤ s.getD (min (⌊h1⌋.toNat + 1) (s.length - 1)) 0 :=
    getD_mono_of_sorted s hs _ _ (le_min (Nat.le_succ _) hi1top) hj1
  have hab2 : s.getD ⌊h2⌋.toNat 0 ≤ s.getD (min (⌊h2⌋.toNat + 1) (s.length - 1)) 0 :=
    getD_mono_of_sorted s hs _ _ (le_min (Nat.le_succ _) hi2top) hj2
  rcases lt_or_eq_of_le hi12 with hlt | heq
  · have hmid : s.getD (min (⌊h1⌋.toNat + 1) (s.length - 1)) 0 ≤ s.getD ⌊h2⌋.toNat 0 :=
      getD_mono_of_sorted s hs _ _ (le_trans (min_le_left _ _) hlt)
        (lt_of_le_of_lt hi2top htop)
    nlinarith [hab1, hab2, hmid, hf1lo, hf1hi, hf2lo]
  · rw [heq]
    have hh12 : h1 - (⌊h2⌋.toNat : ℚ) ≤ h2 - (⌊h2⌋.toNat : ℚ) := by linarith
    nlinarith [hab2, hh12]

/-- `np.percentile` with linear interpolation is monotone in the requested
percentile over a nonempty sample. -/
lemma percentileQ_mono (l : List ℚ) (hl : l ≠ []) (p q : ℚ) (hp : 0 ≤ p)
    (hpq : p ≤ q) (hq : q ≤ 100) : percentileQ l p ≤ percentileQ l q := by
  rw [percentileQ, percentileQ]
  have hsne : List.insertionSort (· ≤ ·) l ≠ [] := by
    intro hc
    have := List.length_insertionSort (· ≤ ·) l
    rw [hc] at this
    exact hl (List.length_eq_zero.mp this.symm)
  have hlen1 : 1 ≤ (List.insertionSort (· ≤ ·) l).length := List.length_pos.mpr hsne
  have hnn : (0 : ℚ) ≤ ((List.insertionSort (· ≤ ·) l).length : ℚ) - 1 := by
    have : (1 : ℚ) ≤ ((List.insertionSort (· ≤ ·) l).length : ℚ) := by
      exact_mod_cast hlen1
    linarith
  apply interpAt_mono _ (List.sorted_insertionSort _ _) hsne
  · exact mul_nonneg (div_nonneg hp (by norm_num)) hnn
  · apply mul_le_mul_of_nonneg_right _ hnn
    exact (div_le_div_iff_of_pos_right (by norm_num : (0:ℚ) < 100)).mpr hpq
  · apply mul_le_of_le_one_left hnn
    rw [div_le_one (by norm_num : (0:ℚ) < 100)]
    exact hq

/-- Claim C9: for a non-empty dataset and a positive trial count, the Monte
Carlo simulation returns a result whose raw sample array has exactly one
recorded dataset-wide variance sum per trial (`length = trials`), and whose
percentiles are ordered `p5 <= p25 <= p75 <= p95`, for every random
oracle. -/
theorem C9_monte_carlo_shape (df : List Row) (sample : ℕ → String → ℚ)
    (trials : ℕ) (hdf : df ≠ []) (ht : 0 < trials) :
    ∃ r, calculate_monte_carlo_simulation df sample trials = some r ∧
      r.all_results.length = trials ∧
      r.percentile_5 ≤ r.percentile_25 ∧
      r.percentile_25 ≤ r.percentile_75 ∧
      r.percentile_75 ≤ r.percentile_95 := by
  simp only [calculate_monte_carlo_simulation]
  split
  · next hresnil =>
    exfalso
    have := congrArg List.length hresnil
    simp at this
    omega
  · next hresne =>
    refine ⟨_, rfl, by simp, ?_, ?_, ?_⟩
    · exact percentileQ_mono _ hresne 5 25 (by norm_num) (by norm_num) (by norm_num)
    · exact percentileQ_mono _ hresne 25 75 (by norm_num) (by norm_num) (by norm_num)
    · exact percentileQ_mono _ hresne 75 95 (by norm_num) (by norm_num) (by norm_num)

/-- Witness for claim C9 at a concrete one-row dataset, a constant random
oracle and two trials. -/
theorem C9_monte_carlo_shape_witness :
    ∃ r, calculate_monte_carlo_simulation
        [{ description := "hall", category := "General", rowType := "Expenditure",
           budget := 10, actual := 3 }] (fun _ _ => 75) 2 = some r ∧
      r.all_results.length = 2 ∧
      r.percentile_5 ≤ r.percentile_25 ∧
      r.percentile_25 ≤ r.percentile_75 ∧
      r.percentile_75 ≤ r.percentile_95 :=
  C9_monte_carlo_shape _ _ 2 (List.cons_ne_nil _ _) (by decide)

/-- Evaluation equation for `clean_currency` once the decimal decomposition
of the cleaned text is known. -/
lemma clean_currency_eq (s : String) (t : Bool × List Char × List Char)
    (h : decSplit (stripChars (s.data.filter (fun c => c ≠ '£' ∧ c ≠ ','))) = some t) :
    clean_currency s = qOfParts t := by
  rw [clean_currency, h]
  rfl

/-- Claim C8: on the line
`4000 Clerks Salary £42,134.00 £19,577.64 £22,556.36` with active category
`EXPENDITURE`, the line parser emits exactly one record with code `4000`,
description `Clerks Salary`, budget 42134.00, actual 19577.64, balance
22556.36 and type `Expenditure`. -/
theorem C8_pdf_line_extraction :
    parse_financial_line "4000 Clerks Salary £42,134.00 £19,577.64 £22,556.36"
      "EXPENDITURE" =
    some { code := "4000", description := "Clerks Salary", category := "EXPENDITURE",
           budget_2025_26 := 42134.00, actual_net := 19577.64, balance := 22556.36,
           itemType := "Expenditure" } := by
  have hsearch : reSearch matchCodedAt
      "4000 Clerks Salary £42,134.00 £19,577.64 £22,556.36".data =
      some ("4000".data, "Clerks Salary".data, "£42,134.00".data, "£19,577.64".data,
        "£22,556.36".data) := by decide
  have hb : clean_currency (String.mk "£42,134.00".data) = (42134.00 : ℚ) :=
    (clean_currency_eq _ (false, "42134".data, "00".data) (by decide)).trans (by
      simp only [qOfParts]
      rw [show digitsToNat "42134".data = 42134 from by decide,
        show digitsToNat "00".data = 0 from by decide,
        show ("00".data).length = 2 from by decide]
      norm_num)
  have ha : clean_currency (String.mk "£19,577.64".data) = (19577.64 : ℚ) :=
    (clean_currency_eq _ (false, "19577".data, "64".data) (by decide)).trans (by
      simp only [qOfParts]
      rw [show digitsToNat "19577".data = 19577 from by decide,
        show digitsToNat "64".data = 64 from by decide,
        show ("64".data).length = 2 from by decide]
      norm_num)
  have hl : clean_currency (String.mk "£22,556.36".data) = (22556.36 : ℚ) :=
    (clean_currency_eq _ (false, "22556".data, "36".data) (by decide)).trans (by
      simp only [qOfParts]
      rw [show digitsToNat "22556".data = 22556 from by decide,
        show digitsToNat "36".data = 36 from by decide,
        show ("36".data).length = 2 from by decide]
      norm_num)
  rw [parse_financial_line, hsearch]
  dsimp only
  rw [hb, ha, hl,
    show String.mk (stripChars "4000".data) = "4000" from by decide,
    show String.mk (stripChars "Clerks Salary".data) = "Clerks Salary" from by decide,
    show containsSub "INCOME".data "EXPENDITURE".data = false from by decide]
  rfl

/-- Witness for claim C3 at a concrete dataset and a concrete zero-budget
pair. -/
theorem C3_risk_classification_total_witness :
    ((calculate_risk_assessment
        [{ description := "hall", category := "General", rowType := "Expenditure",
           budget := 10, actual := 3 }]).map RiskRow.risk_category =
      [{ description := "hall", category := "General", rowType := "Expenditure",
         budget := 10, actual := 3 : Row }].map
        (fun r => riskCategorySpec r.budget r.actual))
    ∧ riskCategorySpec 0 7 = "No Budget"
    ∧ (riskCategorySpec 0 7 = "No Budget" ∨ riskCategorySpec 0 7 = "Low Risk" ∨
       riskCategorySpec 0 7 = "Medium Risk" ∨ riskCategorySpec 0 7 = "High Risk" ∨
       riskCategorySpec 0 7 = "Critical Risk") :=
  C3_risk_classification_total
    [{ description := "hall", category := "General", rowType := "Expenditure",
       budget := 10, actual := 3 }] 0 7

/-- Witness for claim C7 at a concrete projection horizon. -/
theorem C7_empty_input_aggregations_witness :
    get_summary_statistics [] = none ∧
    calculate_risk_assessment [] = [] ∧
    generate_cash_flow_projection [] 12 = [] :=
  C7_empty_input_aggregations 12
